import Mathlib

/-!
Shallow embedding of the kompow knowledge-base and flashcard pipeline
(`utils/knowledge_base.py`, `agno_agents/flashcard_agent.py`,
`agno_agents/profile_agent.py`, `main.py`), together with theorems that
settle the frozen claims about the specification.

Strings are modelled by Lean `String` (a wrapper around `List Char`);
Python semantics such as `str.strip`, truthiness of strings/options and
`re.sub` character classes are translated explicitly below.
-/

namespace Kompow

/-! ### Character classes and Python-style strip -/

/-- The punctuation set replaced by `_` in `sanitize_table_name`
(the first `re.sub`, whose class is dot, at-sign, colon, dash, slash). -/
def isPunct (c : Char) : Bool :=
  c == '.' || c == '@' || c == ':' || c == '-' || c == '/'

/-- One character of the first `re.sub` step of `sanitize_table_name`. -/
def replacePunct (c : Char) : Char :=
  if isPunct c then '_' else c

/-- The character class `[a-zA-Z0-9_]` used by both `re.sub` calls in
`knowledge_base.py`. -/
def isWordChar (c : Char) : Bool :=
  decide (('a' ≤ c ∧ c ≤ 'z') ∨ ('A' ≤ c ∧ c ≤ 'Z') ∨ ('0' ≤ c ∧ c ≤ '9') ∨ c = '_')

/-- Remove the maximal trailing run of characters satisfying `p`
(the trailing half of Python `str.strip`). -/
def dropTrail (p : Char → Bool) : List Char → List Char
  | [] => []
  | c :: cs =>
    let r := dropTrail p cs
    if r.isEmpty then (if p c then [] else [c]) else c :: r

/-- Python `str.strip(chars)`: remove the maximal leading and trailing runs
of characters satisfying `p`. -/
def stripChar (p : Char → Bool) (l : List Char) : List Char :=
  dropTrail p (l.dropWhile p)

/-- Python whitespace as used by `str.strip()` with no argument and by the
regex class `\s` (ASCII). -/
def pyIsSpace (c : Char) : Bool :=
  c == ' ' || c == '\t' || c == '\n' || c == '\r' || c == '\x0b' || c == '\x0c'

/-- Python `str.strip()` (no argument): strip whitespace from both ends. -/
def pyStrip (s : String) : String :=
  ⟨stripChar pyIsSpace s.data⟩

/-! ### The identifier sanitizer (`sanitize_table_name`) -/

/-- Underscore test used by `name.strip('_')`. -/
def isUnd (c : Char) : Bool := c == '_'

/-- The three rewriting steps of `sanitize_table_name`, before the
empty-result fallback: replace `. @ : - /` by `_`, delete every character
outside `[a-zA-Z0-9_]`, strip leading and trailing underscores. -/
def sanitizeSteps (name : String) : List Char :=
  stripChar isUnd ((name.data.map replacePunct).filter isWordChar)

/-- `sanitize_table_name` from `utils/knowledge_base.py`. -/
def sanitize_table_name (name : String) : String :=
  let s := sanitizeSteps name
  if s.isEmpty then "default_table" else ⟨s⟩

/-! ### Decimal rendering of a natural number

Models Python's decimal rendering of the (non-negative) integer millisecond
timestamp interpolated into the document id f-string. -/

/-- Accumulator-style decimal digits, most significant first; `fuel` is a
structural bound, sufficient whenever `n < fuel`. -/
def natToDecAux : Nat → Nat → List Char → List Char
  | 0, _, acc => acc
  | fuel + 1, n, acc =>
    if n < 10 then Nat.digitChar n :: acc
    else natToDecAux fuel (n / 10) (Nat.digitChar (n % 10) :: acc)

/-- Decimal rendering of a natural number, e.g. `natToDec 105 = "105"`. -/
def natToDec (n : Nat) : String :=
  ⟨natToDecAux (n + 1) n []⟩

/-- Numeric value of a list of decimal digit characters. -/
def decVal (l : List Char) : Nat :=
  l.foldl (fun a c => a * 10 + (c.toNat - 48)) 0

/-! ### JSON values and a model of Python `json.loads`

`json` is the Python standard library; the parser below models `json.loads`
on the grammar the repository exercises (objects, arrays, strings with the
standard escapes, integers, `true`/`false`/`null`).  Python's strict mode is
mirrored: unescaped control characters in strings are rejected and trailing
input after the top-level value is rejected.  Duplicate object keys keep the
last binding, as Python dict construction does. -/

inductive Json where
  | null
  | bool (b : Bool)
  | num (n : Int)
  | str (s : String)
  | arr (elems : List Json)
  | obj (members : List (String × Json))

instance : Inhabited Json := ⟨Json.null⟩

/-- The character `{`, kept as a named constant. -/
def lbrace : Char := Char.ofNat 123

/-- The character `}`, kept as a named constant. -/
def rbrace : Char := Char.ofNat 125

/-- JSON whitespace (space, tab, newline, carriage return). -/
def isJsonWs (c : Char) : Bool :=
  c == ' ' || c == '\t' || c == '\n' || c == '\r'

/-- Skip JSON whitespace. -/
def skipWs (cs : List Char) : List Char := cs.dropWhile isJsonWs

/-- Single-character JSON string escapes (Python `json` table), each result
given by its code point. -/
def escChar : Char → Option Char
  | '"' => some '"'
  | '\\' => some '\\'
  | '/' => some '/'
  | 'n' => some (Char.ofNat 10)
  | 't' => some (Char.ofNat 9)
  | 'r' => some (Char.ofNat 13)
  | 'b' => some (Char.ofNat 8)
  | 'f' => some (Char.ofNat 12)
  | _ => none

/-- Hex digit value, if any. -/
def hexVal (c : Char) : Option Nat :=
  if c.isDigit then some (c.toNat - 48)
  else if decide ('a' ≤ c) && decide (c ≤ 'f') then some (c.toNat - 87)
  else if decide ('A' ≤ c) && decide (c ≤ 'F') then some (c.toNat - 55)
  else none

/-- Parse the body of a JSON string literal (after the opening quote),
returning the decoded characters and the input after the closing quote. -/
def parseStrChars : List Char → Option (List Char × List Char)
  | [] => none
  | c :: cs =>
    if c == '"' then some ([], cs)
    else if c == '\\' then
      match cs with
      | [] => none
      | e :: cs1 =>
        if e == 'u' then
          match cs1 with
          | h1 :: h2 :: h3 :: h4 :: cs2 =>
            match hexVal h1, hexVal h2, hexVal h3, hexVal h4 with
            | some a, some b, some c3, some d =>
              match parseStrChars cs2 with
              | some (s, r) => some (Char.ofNat (((a * 16 + b) * 16 + c3) * 16 + d) :: s, r)
              | none => none
            | _, _, _, _ => none
          | _ => none
        else
          match escChar e with
          | some ec =>
            match parseStrChars cs1 with
            | some (s, r) => some (ec :: s, r)
            | none => none
          | none => none
    else if c.toNat < 32 then none
    else
      match parseStrChars cs with
      | some (s, r) => some (c :: s, r)
      | none => none

/-- Parse an unsigned decimal digit run. -/
def parseDigits : List Char → Option (Nat × List Char)
  | cs =>
    let ds := cs.takeWhile (fun c => decide ('0' ≤ c ∧ c ≤ '9'))
    if ds.isEmpty then none
    else some (decVal ds, cs.drop ds.length)

mutual

/-- Model of the recursive descent inside Python `json.loads`:
parse one JSON value, returning it and the remaining input. -/
def parseValue : Nat → List Char → Option (Json × List Char)
  | 0, _ => none
  | fuel + 1, cs =>
    match skipWs cs with
    | [] => none
    | c :: rest =>
      if c == lbrace then
        match skipWs rest with
        | d :: rest1 =>
          if d == rbrace then some (Json.obj [], rest1)
          else
            match parseMembers fuel (skipWs rest) with
            | some (ms, r) => some (Json.obj ms, r)
            | none => none
        | [] => none
      else if c == '[' then
        match skipWs rest with
        | d :: rest1 =>
          if d == ']' then some (Json.arr [], rest1)
          else
            match parseElems fuel (skipWs rest) with
            | some (es, r) => some (Json.arr es, r)
            | none => none
        | [] => none
      else if c == '"' then
        match parseStrChars rest with
        | some (s, r) => some (Json.str ⟨s⟩, r)
        | none => none
      else if c == '-' then
        match parseDigits rest with
        | some (n, r) => some (Json.num (-(n : Int)), r)
        | none => none
      else if decide ('0' ≤ c ∧ c ≤ '9') then
        match parseDigits (c :: rest) with
        | some (n, r) => some (Json.num (n : Int), r)
        | none => none
      else if ("true".data).isPrefixOf (c :: rest) then
        some (Json.bool true, (c :: rest).drop 4)
      else if ("false".data).isPrefixOf (c :: rest) then
        some (Json.bool false, (c :: rest).drop 5)
      else if ("null".data).isPrefixOf (c :: rest) then
        some (Json.null, (c :: rest).drop 4)
      else none

/-- Parse one or more `"key": value` members followed by `}`. -/
def parseMembers : Nat → List Char → Option (List (String × Json) × List Char)
  | 0, _ => none
  | fuel + 1, cs =>
    match skipWs cs with
    | c :: rest =>
      if c == '"' then
        match parseStrChars rest with
        | some (k, r1) =>
          match skipWs r1 with
          | d :: r2 =>
            if d == ':' then
              match parseValue fuel r2 with
              | some (v, r3) =>
                match skipWs r3 with
                | e :: r4 =>
                  if e == ',' then
                    match parseMembers fuel r4 with
                    | some (ms, r5) => some ((⟨k⟩, v) :: ms, r5)
                    | none => none
                  else if e == rbrace then some ([(⟨k⟩, v)], r4)
                  else none
                | [] => none
              | none => none
            else none
          | [] => none
        | none => none
      else none
    | [] => none

/-- Parse one or more array elements followed by `]`. -/
def parseElems : Nat → List Char → Option (List Json × List Char)
  | 0, _ => none
  | fuel + 1, cs =>
    match parseValue fuel cs with
    | some (v, r1) =>
      match skipWs r1 with
      | e :: r2 =>
        if e == ',' then
          match parseElems fuel r2 with
          | some (es, r3) => some (v :: es, r3)
          | none => none
        else if e == ']' then some ([v], r2)
        else none
      | [] => none
    | none => none

end

/-- Model of Python `json.loads`: parse a full JSON document, rejecting
trailing non-whitespace input. -/
def jsonLoads (s : String) : Option Json :=
  match parseValue (s.data.length + 1) s.data with
  | some (v, rest) => if (skipWs rest).isEmpty then some v else none
  | none => none

/-- Python dict lookup on parsed members: the last binding of a duplicated
key wins, as in dict construction. -/
def lookupMember (members : List (String × Json)) (key : String) : Option Json :=
  match members with
  | [] => none
  | (k, v) :: rest =>
    match lookupMember rest key with
    | some r => some r
    | none => if k == key then some v else none

/-! ### Knowledge-base data model (`utils/knowledge_base.py`)

A `Document` mirrors the Agno document: an id, a content string, and an
optional metadata dict.  The metadata dict is modelled by a structure with
one optional field per key the repository reads or writes; a missing field
is a missing dict key.  The vector backend's `search` method is an abstract
function field, and `addSucceeds` models whether the backend `add` call
raises (the `except` branch of the Python code). -/

structure Metadata where
  doc_type : Option String
  user_id : Option String
  topic : Option String
  creation_date : Option String
  source_tag : Option String
deriving DecidableEq, Repr

/-- The empty metadata dict. -/
def Metadata.empty : Metadata := ⟨none, none, none, none, none⟩

structure Document where
  id : String
  content : String
  metadata : Option Metadata
deriving DecidableEq, Repr

structure VectorDb where
  table_name : String
  embedder : Option Unit

structure KnowledgeBase where
  vector_db : VectorDb
  searchFn : String → Nat → List Document
  addSucceeds : Bool

/-- `doc.metadata or {}` as used throughout `knowledge_base.py`. -/
def metaOf (d : Document) : Metadata := d.metadata.getD Metadata.empty

/-- `query_knowledge_base`: `None` handle gives `None`; a handle without an
embedder gives the empty list; otherwise the backend search results. -/
def query_knowledge_base (kb : Option KnowledgeBase) (query_text : String)
    (limit : Nat) : Option (List Document) :=
  match kb with
  | none => none
  | some k =>
    if k.vector_db.embedder.isNone then some []
    else some (k.searchFn query_text limit)

/-- Python truthiness of the optional `topic` argument (`None` and the
empty string are falsy). -/
def topicTruthy : Option String → Bool
  | none => false
  | some t => !t.isEmpty

/-- The semantic query text built by `get_flashcard_sets_for_user`. -/
def queryTextFor (user_id : String) (topic : Option String) : String :=
  if topicTruthy topic then
    "flashcards by " ++ user_id ++ " about " ++ topic.getD ""
  else
    "flashcard sets related to user " ++ user_id

/-- The local metadata filter of `get_flashcard_sets_for_user`. -/
def flashcardFilter (user_id : String) (topic : Option String) (d : Document) : Bool :=
  let m := metaOf d
  m.doc_type == some "flashcard_set" && m.user_id == some user_id &&
    (if topicTruthy topic then m.topic == topic else true)

/-- `(d.metadata or {}).get("creation_date", "")`, the sort key. -/
def sortKey (d : Document) : String := (metaOf d).creation_date.getD ""

/-- The ordering used by `flashcard_docs.sort(key=..., reverse=True)`:
`a` may come before `b` when `a`'s creation date is at least `b`'s.
Python's sort is stable, which `List.insertionSort` with this non-strict
relation reproduces. -/
def docDesc (a b : Document) : Prop := sortKey b ≤ sortKey a

instance : DecidableRel docDesc := fun _ _ => String.decidableLE _ _

instance : IsTotal Document docDesc :=
  ⟨fun a b => (le_total (sortKey b) (sortKey a)).imp id id⟩

instance : IsTrans Document docDesc :=
  ⟨fun _ _ _ hab hbc => le_trans hbc hab⟩

/-- The stable descending sort on creation date. -/
def sortByDateDesc (l : List Document) : List Document :=
  l.insertionSort docDesc

/-- `get_flashcard_sets_for_user` from `utils/knowledge_base.py`. -/
def get_flashcard_sets_for_user (kb : Option KnowledgeBase) (user_id : String)
    (topic : Option String) (limit : Nat) : List Document :=
  match kb with
  | none => []
  | some k =>
    if k.vector_db.embedder.isNone then []
    else
      let search_results := k.searchFn (queryTextFor user_id topic) (limit * 10)
      let flashcard_docs := search_results.filter (flashcardFilter user_id topic)
      (sortByDateDesc flashcard_docs).take limit

/-- `get_available_flashcard_topics` from `utils/knowledge_base.py`:
`sorted(list(set(...)))` over the truthy topics of the retrieved sets. -/
def get_available_flashcard_topics (kb : Option KnowledgeBase)
    (user_id : String) : List String :=
  match kb with
  | none => []
  | some k =>
    if k.vector_db.embedder.isNone then []
    else
      let all_flashcard_docs := get_flashcard_sets_for_user kb user_id none 1000
      let topics := all_flashcard_docs.filterMap fun d =>
        match d.metadata with
        | none => none
        | some m =>
          match m.topic with
          | some t => if t.isEmpty then none else some t
          | none => none
      topics.dedup.insertionSort (· ≤ ·)

/-! ### Storing a flashcard set (`add_flashcard_set_to_kb`) -/

/-- Python `str.lower()` (ASCII case, which covers the repository's use). -/
def pyLower (s : String) : String := ⟨s.data.map Char.toLower⟩

/-- The topic fragment of the document id:
`re.sub` replacing every character outside `[a-zA-Z0-9_]` of the lowered
topic by `_`, truncated to 50 characters. -/
def topicIdSan (topic : String) : String :=
  ⟨((pyLower topic).data.map (fun c => if isWordChar c then c else '_')).take 50⟩

/-- The document id built by `add_flashcard_set_to_kb`; `now_ms` is the
millisecond timestamp `int(datetime.now(timezone.utc).timestamp() * 1000)`. -/
def docIdFor (user_id topic : String) (now_ms : Nat) : String :=
  "flashcards_" ++ sanitize_table_name user_id ++ "_" ++ topicIdSan topic
    ++ "_" ++ natToDec now_ms

/-- `add_flashcard_set_to_kb` from `utils/knowledge_base.py`.  The result is
the returned boolean paired with the document handed to `kb.add`
(`none` when `kb.add` was never invoked).  `now_iso` is the ISO-8601
timestamp and `now_ms` the millisecond timestamp taken at call time. -/
def add_flashcard_set_to_kb (kb : Option KnowledgeBase)
    (user_id topic flashcards_json_string source_tag : String)
    (now_iso : String) (now_ms : Nat) : Bool × Option Document :=
  match kb with
  | none => (false, none)
  | some k =>
    let doc_id := docIdFor user_id topic now_ms
    let metadata : Metadata :=
      ⟨some "flashcard_set", some user_id, some topic, some now_iso, some source_tag⟩
    match jsonLoads flashcards_json_string with
    | some (Json.arr _) =>
      let document : Document := ⟨doc_id, flashcards_json_string, some metadata⟩
      (k.addSucceeds, some document)
    | _ => (false, none)

/-! ### Flashcard generation agent (`agno_agents/flashcard_agent.py`)

`generate_flashcards_from_text` returns `list[dict] | str`; the tagged type
below keeps the two shapes apart.  The LLM call is an abstract function
argument, so independence from it expresses "the agent was not invoked". -/

inductive FlashcardsResult where
  | cards (l : List Json)
  | failure (msg : String)

/-- Scan for the first position whose character is a closing brace followed
(after regex whitespace) by a closing fence; return the scanned characters
up to and including that brace.  This is the lazy group `.*?` with `\x7d`
then whitespace then the fence, under `re.DOTALL`. -/
def findClose : List Char → Option (List Char)
  | [] => none
  | c :: cs =>
    if c == rbrace && ("```".data).isPrefixOf (cs.dropWhile pyIsSpace) then
      some [c]
    else
      match findClose cs with
      | some cap => some (c :: cap)
      | none => none

/-- Try to complete the fence match just after a `` ```json `` marker:
greedy whitespace, an opening brace, then the lazy scan for the close. -/
def tryFenceAt (cs : List Char) : Option (List Char) :=
  match cs.dropWhile pyIsSpace with
  | c :: rest => if c == lbrace then (findClose rest).map (fun cap => c :: cap) else none
  | [] => none

/-- `re.search` for the fenced pattern: leftmost start wins, and at each
start the match is attempted as `tryFenceAt` describes. -/
def extractFenced : List Char → Option (List Char)
  | [] => none
  | c :: cs =>
    match (if ("```json".data).isPrefixOf (c :: cs) then
        tryFenceAt ((c :: cs).drop 7) else none) with
    | some cap => some cap
    | none => extractFenced cs

/-- The candidate-JSON extraction chain of `generate_flashcards_from_text`:
(a) the object inside a `` ```json `` fenced block, else (b) the whole text
if it starts with `\x7b` and ends with `\x7d`, else (c) the slice from the
first `\x7b` to the last `\x7d` when the latter comes after the former,
else the text unchanged. -/
def extractCandidate (cs : List Char) : List Char :=
  match extractFenced cs with
  | some inner => inner
  | none =>
    let objLike := match cs with
      | [] => false
      | c :: _ => c == lbrace && cs.getLast? == some rbrace
    if objLike then cs
    else
      match cs.findIdx? (· == lbrace), cs.reverse.findIdx? (· == rbrace) with
      | some i, some jr =>
        let j := cs.length - 1 - jr
        if i < j then (cs.drop i).take (j - i + 1) else cs
      | _, _ => cs

/-- Success shape required of the parsed candidate: a JSON object whose
`"flashcards"` member is an array. -/
def flashcardsOf (j : Json) : Option (List Json) :=
  match j with
  | Json.obj members =>
    match lookupMember members "flashcards" with
    | some (Json.arr l) => some l
    | _ => none
  | _ => none

/-- The parsing tail of `generate_flashcards_from_text`, applied to the
stripped agent response. -/
def parseAgentResponse (response_text : String) : FlashcardsResult :=
  let candidate : List Char := extractCandidate response_text.data
  match jsonLoads ⟨candidate⟩ with
  | none =>
    FlashcardsResult.failure ("Failed to parse JSON. Raw LLM output: " ++ String.mk candidate)
  | some j =>
    match j with
    | Json.obj members =>
      match lookupMember members "flashcards" with
      | some (Json.arr cards) => FlashcardsResult.cards cards
      | _ => FlashcardsResult.failure
          ("JSON parsing error: Unexpected structure. Raw output: " ++ String.mk candidate)
    | _ => FlashcardsResult.failure
        ("JSON parsing error: Unexpected structure. Raw output: " ++ String.mk candidate)

/-- The user prompt built by `generate_flashcards_from_text`. -/
def promptFor (text_content : String) (max_flashcards : Nat) : String :=
  "Please generate up to " ++ natToDec max_flashcards
    ++ " flashcards in the specified JSON format (a JSON object with a single key \"flashcards\" containing a list of question/answer objects) based on the following text content:\n\n--- TEXT START ---\n"
    ++ text_content ++ "\n--- TEXT END ---\n\nRemember to only output the JSON object."

/-- `generate_flashcards_from_text` from `agno_agents/flashcard_agent.py`;
`llm` is the agent capability `self(prompt)`. -/
def generate_flashcards_from_text (llm : String → String) (text_content : String)
    (max_flashcards : Nat) : FlashcardsResult :=
  if (pyStrip text_content).isEmpty then
    FlashcardsResult.failure "Input text is empty. Cannot generate flashcards."
  else
    parseAgentResponse (pyStrip (llm (promptFor text_content max_flashcards)))

/-! ### Profile agent (`agno_agents/profile_agent.py`) -/

/-- The zero-documents sentinel of `analyze_user_profile`. -/
def noDocsSentinel : String :=
  "No documents found in the user's knowledge base. Cannot analyze profile."

/-- The separator dashes in the profile prompt. -/
def dashLine : String := ⟨List.replicate 20 '-'⟩

/-- The analysis prompt of `analyze_user_profile`. -/
def profilePrompt (full_text_content : String) : String :=
  "The following text is a collection of documents from a user's knowledge base. Please analyze this content and generate a learning profile summary. Focus on:\n1. Main topics and concepts of interest.\n2. Specific keywords, technologies, or skills mentioned.\n3. Potential learning goals or areas of deep knowledge.\n4. Any recurring themes or questions.\n\nPresent this as a structured summary.\n\nUser's Documents:\n"
    ++ dashLine ++ "\n" ++ full_text_content ++ "\n" ++ dashLine
    ++ "\nEnd of User's Documents. Begin Profile Summary:\n"

/-- `LearningProfileAgent.analyze_user_profile`; `kb` is `self.kb` and
`llm` the agent capability. -/
def analyze_user_profile (kb : Option KnowledgeBase) (llm : String → String)
    (max_docs : Nat) (query_str : String) : String :=
  match kb with
  | none => "Could not analyze user profile: Knowledge Base not available."
  | some _ =>
    match query_knowledge_base kb query_str max_docs with
    | none => noDocsSentinel
    | some [] => noDocsSentinel
    | some documents =>
      let full_text_content := String.intercalate "\n\n---\n\n"
        (documents.filterMap fun d => if d.content.isEmpty then none else some d.content)
      if (pyStrip full_text_content).isEmpty then
        "Retrieved documents have no text content. Cannot analyze profile."
      else
        llm (profilePrompt full_text_content)

/-! ### Pipeline orchestrator (`main.py`) -/

/-- Substring containment of `pat` in a character list. -/
def listContains (pat : List Char) : List Char → Bool
  | [] => pat.isEmpty
  | c :: cs => pat.isPrefixOf (c :: cs) || listContains pat cs

/-- Substring containment, Python `pat in s`. -/
def containsSub (s pat : String) : Bool := listContains pat.data s.data

/-- Which later stages ran, and what (if anything) was handed to the store. -/
structure PipelineTrace where
  researchCalled : Bool
  generateCalled : Bool
  storedDoc : Option Document
deriving DecidableEq, Repr

/-- `process_user_content_and_generate_flashcards` from `main.py`, with the
agent capabilities (`profile_llm`, `research`, `gen_llm`), the JSON
serializer `dumps` (Python `json.dumps`) and the timestamps as explicit
arguments.  The trace records whether the research stage and the flashcard
generation stage were invoked and the document handed to storage. -/
def process_user_content_and_generate_flashcards
    (profile_kb : Option KnowledgeBase) (profile_llm : String → String)
    (research : String → String) (gen_llm : String → String)
    (dumps : List Json → String) (kb_user : Option KnowledgeBase)
    (user_id topic_label now_iso : String) (now_ms : Nat) : PipelineTrace :=
  let profile_analysis_text := analyze_user_profile profile_kb profile_llm 50 ""
  if profile_analysis_text.isEmpty
      || containsSub profile_analysis_text "Cannot analyze profile"
      || containsSub profile_analysis_text "No documents found" then
    ⟨false, false, none⟩
  else
    let researched_text := research profile_analysis_text
    if researched_text.isEmpty
        || containsSub researched_text "Failed to conduct research"
        || decide (researched_text.length < 100) then
      ⟨true, false, none⟩
    else
      match generate_flashcards_from_text gen_llm researched_text 10 with
      | FlashcardsResult.failure _ => ⟨true, true, none⟩
      | FlashcardsResult.cards [] => ⟨true, true, none⟩
      | FlashcardsResult.cards cards =>
        match kb_user with
        | none => ⟨true, true, none⟩
        | some _ =>
          ⟨true, true,
            (add_flashcard_set_to_kb kb_user user_id topic_label (dumps cards)
              "automated_pipeline_from_profile" now_iso now_ms).2⟩

/-! ### Auxiliary claim-level definitions and concrete fixtures -/

/-- The validation predicate of `add_flashcard_set_to_kb`: the payload
parses and the top-level value is a JSON array. -/
def jsonIsList (o : Option Json) : Bool :=
  match o with
  | some (Json.arr _) => true
  | _ => false

/-- The document-id formula as the specification words it:
`flashcards_` + sanitize(user_id) + `_` + first 50 characters of
sanitize(topic) + `_` + millisecond timestamp, with `sanitize` being
`sanitize_table_name`.  Stated from the spec for comparison with the
id the code builds. -/
def claimedDocId (user_id topic : String) (ms : Nat) : String :=
  "flashcards_" ++ sanitize_table_name user_id ++ "_"
    ++ ⟨(sanitize_table_name topic).data.take 50⟩ ++ "_" ++ natToDec ms

/-- A collection handle with an embedder and an inert backend. -/
def kbReady : KnowledgeBase := ⟨⟨"user_t", some ()⟩, fun _ _ => [], true⟩

/-- A degraded-mode handle (no embedder) whose backend would nevertheless
return a document, to witness that the backend is not consulted. -/
def kbNoEmb : KnowledgeBase :=
  ⟨⟨"user_t", none⟩, fun _ _ => [⟨"d1", "c1", none⟩], true⟩

/-- Metadata of a stored flashcard set for user `u@x`, topic `T`. -/
def metaAt (date : String) : Metadata :=
  ⟨some "flashcard_set", some "u@x", some "T", some date, some "s"⟩

/-- Three stored sets with distinct creation dates. -/
def dA : Document := ⟨"a", "[]", some (metaAt "2024-01-01T00:00:00+00:00")⟩

def dB : Document := ⟨"b", "[]", some (metaAt "2024-03-01T00:00:00+00:00")⟩

def dC : Document := ⟨"c", "[]", some (metaAt "2024-02-01T00:00:00+00:00")⟩

/-- A ready handle whose backend returns the three sets in stored order. -/
def kbThree : KnowledgeBase := ⟨⟨"user_t", some ()⟩, fun _ _ => [dA, dB, dC], true⟩

/-- The fenced agent response of the parser claim. -/
def fencedExample : String :=
  "```json\n\x7b\"flashcards\":[\x7b\"question\":\"Q1\",\"answer\":\"A1\"\x7d]\x7d\n```"

/-- The malformed agent response of the parser claim. -/
def malformedExample : String := "\x7b\"flashcards\": [\x7b\"question\": \"Q1\""

/-- The wrong-shape agent response of the parser claim: an object with only
the key `data`. -/
def wrongShapeExample : String := "\x7b\"data\": []\x7d"

/-- The flashcard produced by the fenced example. -/
def qaCard : Json :=
  Json.obj [("question", Json.str "Q1"), ("answer", Json.str "A1")]

/-- The document stored by `add_flashcard_set_to_kb` for user `u`, topic
`ABC`, payload `[]`, source `s`, ISO date `d`, millisecond timestamp 5. -/
def docStored : Document :=
  ⟨"flashcards_u_abc_5", "[]",
    some ⟨some "flashcard_set", some "u", some "ABC", some "d", some "s"⟩⟩

/-! ## Theorems

First general-purpose lemmas about the helper functions, then one theorem
per claim (with witnesses and, for the corrected claim, a counterexample). -/

theorem natToDecAux_fuel (n : Nat) :
    ∀ f1 f2 : Nat, n < f1 → n < f2 → ∀ acc : List Char,
      natToDecAux f1 n acc = natToDecAux f2 n acc := by
  induction n using Nat.strong_induction_on with
  | _ n ih =>
    intro f1 f2 h1 h2 acc
    match f1, f2 with
    | g1 + 1, g2 + 1 =>
      by_cases h : n < 10
      · simp [natToDecAux, h]
      · simp only [natToDecAux, h, if_false]
        exact ih (n / 10) (Nat.div_lt_self (by omega) (by omega)) g1 g2
          (by omega) (by omega) _

theorem natToDecAux_eq_append (fuel n : Nat) (hf : n < fuel) (acc : List Char) :
    natToDecAux fuel n acc = natToDecAux fuel n [] ++ acc := by
  induction n using Nat.strong_induction_on generalizing fuel acc with
  | _ n ih =>
    match fuel with
    | g + 1 =>
      by_cases h : n < 10
      · simp [natToDecAux, h]
      · simp only [natToDecAux, h, if_false]
        have hg : n / 10 < g := by
          have := Nat.div_lt_self (show 0 < n by omega) (show 1 < 10 by omega)
          omega
        rw [ih (n / 10) (Nat.div_lt_self (by omega) (by omega)) g hg,
          ih (n / 10) (Nat.div_lt_self (by omega) (by omega)) g hg
            [Nat.digitChar (n % 10)]]
        simp

theorem digitChar_val (d : Nat) (h : d < 10) : (Nat.digitChar d).toNat - 48 = d := by
  interval_cases d <;> rfl

theorem decVal_natToDec (n : Nat) : decVal (natToDec n).data = n := by
  induction n using Nat.strong_induction_on with
  | _ n ih =>
    by_cases h : n < 10
    · show decVal (natToDecAux (n + 1) n []) = n
      simp only [natToDecAux, h, if_true]
      show 0 * 10 + ((Nat.digitChar n).toNat - 48) = n
      rw [digitChar_val n h]
      omega
    · show decVal (natToDecAux (n + 1) n []) = n
      simp only [natToDecAux, h, if_false]
      have hg : n / 10 < n := Nat.div_lt_self (by omega) (by omega)
      rw [natToDecAux_fuel (n / 10) n (n / 10 + 1) (by omega) (by omega)]
      rw [natToDecAux_eq_append (n / 10 + 1) (n / 10) (by omega)]
      show decVal (natToDecAux (n / 10 + 1) (n / 10) [] ++ [Nat.digitChar (n % 10)]) = n
      unfold decVal
      rw [List.foldl_append]
      have h1 : decVal (natToDecAux (n / 10 + 1) (n / 10) []) = n / 10 := ih (n / 10) hg
      unfold decVal at h1
      rw [h1]
      simp only [List.foldl_cons, List.foldl_nil]
      rw [digitChar_val (n % 10) (Nat.mod_lt n (by omega))]
      omega

theorem natToDec_injective {a b : Nat} (h : natToDec a = natToDec b) : a = b := by
  have := congrArg (fun s => decVal (String.data s)) h
  simpa [decVal_natToDec] using this

theorem dropWhile_dropWhile (p : Char → Bool) (l : List Char) :
    (l.dropWhile p).dropWhile p = l.dropWhile p := by
  induction l with
  | nil => rfl
  | cons c cs ih =>
    by_cases h : p c
    · simp [List.dropWhile_cons, h, ih]
    · simp [List.dropWhile_cons, h]

theorem dropTrail_nil (p : Char → Bool) : dropTrail p [] = [] := rfl

theorem dropTrail_cons (p : Char → Bool) (c : Char) (cs : List Char) :
    dropTrail p (c :: cs) =
      if (dropTrail p cs).isEmpty then (if p c then [] else [c])
      else c :: dropTrail p cs := rfl

theorem mem_dropTrail {p : Char → Bool} {l : List Char} {a : Char} :
    a ∈ dropTrail p l → a ∈ l := by
  induction l with
  | nil => intro h; exact absurd h (by simp [dropTrail_nil])
  | cons c cs ih =>
    intro h
    rw [dropTrail_cons] at h
    by_cases he : (dropTrail p cs).isEmpty = true
    · by_cases hp : p c = true
      · simp [he, hp] at h
      · simp [he, hp] at h
        simp [h]
    · simp [he, List.mem_cons] at h
      rcases h with rfl | h2
      · simp
      · exact List.mem_cons_of_mem _ (ih h2)

theorem dropTrail_idem (p : Char → Bool) (l : List Char) :
    dropTrail p (dropTrail p l) = dropTrail p l := by
  induction l with
  | nil => rfl
  | cons c cs ih =>
    by_cases he : (dropTrail p cs).isEmpty = true
    · by_cases hp : p c = true
      · simp [dropTrail_cons, he, hp, dropTrail_nil]
      · simp [dropTrail_cons, he, hp, dropTrail_nil]
    · simp [dropTrail_cons, he, ih]

theorem dropWhile_dropTrail_comm (p : Char → Bool) (l : List Char) :
    List.dropWhile p (dropTrail p l) = dropTrail p (List.dropWhile p l) := by
  induction l with
  | nil => rfl
  | cons c cs ih =>
    by_cases hp : p c = true <;>
      cases hre : dropTrail p cs <;>
        simp_all [dropTrail_cons, dropTrail_nil, List.dropWhile_cons]

theorem stripChar_idem (p : Char → Bool) (l : List Char) :
    stripChar p (stripChar p l) = stripChar p l := by
  unfold stripChar
  rw [dropWhile_dropTrail_comm, dropWhile_dropWhile, dropTrail_idem]

theorem mem_stripChar {p : Char → Bool} {l : List Char} {a : Char}
    (h : a ∈ stripChar p l) : a ∈ l :=
  (List.dropWhile_sublist p).subset (mem_dropTrail h)

theorem sanitizeSteps_allWord (s : String) :
    ∀ c ∈ sanitizeSteps s, isWordChar c = true := by
  intro c hc
  have h1 : c ∈ (s.data.map replacePunct).filter isWordChar := mem_stripChar hc
  exact (List.mem_filter.1 h1).2

theorem word_replacePunct (c : Char) (h : isWordChar c = true) :
    replacePunct c = c := by
  unfold replacePunct
  by_cases hp : isPunct c = true
  · exfalso
    have := hp
    simp only [isPunct, Bool.or_eq_true, beq_iff_eq] at this
    rcases this with ((((rfl | rfl) | rfl) | rfl) | rfl) <;> exact absurd h (by decide)
  · simp [hp]

theorem map_replacePunct_id {l : List Char} (h : ∀ c ∈ l, isWordChar c = true) :
    l.map replacePunct = l := by
  induction l with
  | nil => rfl
  | cons c cs ih =>
    simp only [List.map_cons]
    rw [word_replacePunct c (h c (by simp)), ih fun d hd => h d (List.mem_cons_of_mem _ hd)]

theorem sanitize_eq_default {s : String} (h : sanitizeSteps s = []) :
    sanitize_table_name s = "default_table" := by
  simp [sanitize_table_name, h]

theorem sanitize_eq_steps {s : String} (h : sanitizeSteps s ≠ []) :
    sanitize_table_name s = ⟨sanitizeSteps s⟩ := by
  simp [sanitize_table_name, List.isEmpty_iff, h]

/-- C6: the sanitizer is a total deterministic function; every character of
its output is in the class `[A-Za-z0-9_]`, the output is never the empty
string, and the literal `default_table` fallback is returned exactly on the
branch where the three rewriting steps (punctuation to underscore, deletion
of other non-word characters, trimming of underscores) leave nothing. -/
theorem sanitizer_charset_total (s : String) :
    (sanitize_table_name s).data.all isWordChar = true
    ∧ sanitize_table_name s ≠ ""
    ∧ (sanitizeSteps s = [] → sanitize_table_name s = "default_table")
    ∧ (sanitizeSteps s ≠ [] → sanitize_table_name s = ⟨sanitizeSteps s⟩) := by
  by_cases h : sanitizeSteps s = []
  · have he := sanitize_eq_default h
    refine ⟨?_, ?_, fun _ => he, fun hc => absurd h hc⟩
    · rw [he]; decide
    · rw [he]; decide
  · have he := sanitize_eq_steps h
    refine ⟨?_, ?_, fun hc => absurd hc h, fun _ => he⟩
    · rw [he]
      rw [List.all_eq_true]
      exact sanitizeSteps_allWord s
    · rw [he]
      intro hc
      exact h (congrArg String.data hc)

theorem sanitizer_charset_total_witness :
    (sanitize_table_name "a@b.c/x").data.all isWordChar = true
    ∧ sanitize_table_name "a@b.c/x" ≠ ""
    ∧ sanitize_table_name "@@" = "default_table" :=
  ⟨(sanitizer_charset_total "a@b.c/x").1, (sanitizer_charset_total "a@b.c/x").2.1,
    (sanitizer_charset_total "@@").2.2.1 (by decide)⟩

/-- C7: the sanitizer is idempotent. -/
theorem sanitizer_idempotent (s : String) :
    sanitize_table_name (sanitize_table_name s) = sanitize_table_name s := by
  by_cases h : sanitizeSteps s = []
  · rw [sanitize_eq_default h]
    decide
  · rw [sanitize_eq_steps h]
    have hall : ∀ c ∈ sanitizeSteps s, isWordChar c = true := sanitizeSteps_allWord s
    have hsteps : sanitizeSteps ⟨sanitizeSteps s⟩ = sanitizeSteps s := by
      show stripChar isUnd (((sanitizeSteps s).map replacePunct).filter isWordChar)
        = sanitizeSteps s
      rw [map_replacePunct_id hall, List.filter_eq_self.mpr hall]
      exact stripChar_idem isUnd _
    rw [sanitize_eq_steps (fun hc => h (hsteps ▸ hc)), hsteps]

/-- C10: with a `None` knowledge-base handle, `query_knowledge_base`
returns `None` while `get_flashcard_sets_for_user` and
`get_available_flashcard_topics` return the empty list — the `None`-handle
failure is signalled inconsistently across the three retrieval operations. -/
theorem none_handle_signalling :
    ∀ (q u : String) (topic : Option String) (limit : Nat),
      query_knowledge_base none q limit = none
      ∧ get_flashcard_sets_for_user none u topic limit = []
      ∧ get_available_flashcard_topics none u = [] :=
  fun _ _ _ _ => ⟨rfl, rfl, rfl⟩

/-- C4: on a handle whose collection has no embedder, flashcard retrieval,
topic listing and querying all fail closed to an empty result, whatever the
backend search would have returned. -/
theorem degraded_mode_fail_closed (k : KnowledgeBase)
    (h : k.vector_db.embedder = none) :
    ∀ (u q : String) (topic : Option String) (limit : Nat),
      get_flashcard_sets_for_user (some k) u topic limit = []
      ∧ get_available_flashcard_topics (some k) u = []
      ∧ query_knowledge_base (some k) q limit = some [] := by
  intro u q topic limit
  refine ⟨?_, ?_, ?_⟩
  · simp [get_flashcard_sets_for_user, h]
  · simp [get_available_flashcard_topics, h]
  · simp [query_knowledge_base, h]

theorem degraded_mode_fail_closed_witness :
    get_flashcard_sets_for_user (some kbNoEmb) "u@x" (some "T") 20 = []
    ∧ get_available_flashcard_topics (some kbNoEmb) "u@x" = []
    ∧ query_knowledge_base (some kbNoEmb) "q" 3 = some [] :=
  degraded_mode_fail_closed kbNoEmb rfl "u@x" "q" (some "T") 20

/-- C9: on empty or all-whitespace input, `generate_flashcards_from_text`
returns the literal sentinel string and its result does not depend on the
agent capability (no LLM call is observable). -/
theorem empty_input_no_agent_call (t : String) (mf : Nat)
    (h : (pyStrip t).isEmpty = true) :
    (∀ llm : String → String,
        generate_flashcards_from_text llm t mf
          = FlashcardsResult.failure "Input text is empty. Cannot generate flashcards.")
    ∧ (∀ llm1 llm2 : String → String,
        generate_flashcards_from_text llm1 t mf
          = generate_flashcards_from_text llm2 t mf) := by
  constructor
  · intro llm
    simp [generate_flashcards_from_text, h]
  · intro llm1 llm2
    simp [generate_flashcards_from_text, h]

theorem empty_input_no_agent_call_witness :
    (pyStrip "   ").isEmpty = true
    ∧ generate_flashcards_from_text (fun _ => "\x7b\"flashcards\":[]\x7d") "   " 10
        = FlashcardsResult.failure "Input text is empty. Cannot generate flashcards."
    ∧ generate_flashcards_from_text (fun _ => "a") "   " 10
        = generate_flashcards_from_text (fun _ => "b") "   " 10 :=
  ⟨by decide, (empty_input_no_agent_call "   " 10 (by decide)).1 _,
    (empty_input_no_agent_call "   " 10 (by decide)).2 _ _⟩

/-- C3: `add_flashcard_set_to_kb` returns `False` and never hands a
document to the store when the payload does not parse as JSON or parses to
a non-list; the store's add is reachable only after that validation
succeeds. -/
theorem store_set_validates_before_add
    (kb : Option KnowledgeBase) (u t s src iso : String) (ms : Nat) :
    (jsonIsList (jsonLoads s) = false →
      add_flashcard_set_to_kb kb u t s src iso ms = (false, none))
    ∧ (∀ d : Document,
        (add_flashcard_set_to_kb kb u t s src iso ms).2 = some d →
        ∃ l, jsonLoads s = some (Json.arr l)) := by
  cases kb with
  | none =>
    exact ⟨fun _ => rfl, fun d hd => absurd hd (by simp [add_flashcard_set_to_kb])⟩
  | some k =>
    constructor
    · intro h
      cases hj : jsonLoads s with
      | none => simp [add_flashcard_set_to_kb, hj]
      | some j =>
        cases j with
        | arr l => rw [hj] at h; simp [jsonIsList] at h
        | null => simp [add_flashcard_set_to_kb, hj]
        | bool b => simp [add_flashcard_set_to_kb, hj]
        | num n => simp [add_flashcard_set_to_kb, hj]
        | str s2 => simp [add_flashcard_set_to_kb, hj]
        | obj m => simp [add_flashcard_set_to_kb, hj]
    · intro d hd
      cases hj : jsonLoads s with
      | none => simp [add_flashcard_set_to_kb, hj] at hd
      | some j =>
        cases j with
        | arr l => exact ⟨l, rfl⟩
        | null => simp [add_flashcard_set_to_kb, hj] at hd
        | bool b => simp [add_flashcard_set_to_kb, hj] at hd
        | num n => simp [add_flashcard_set_to_kb, hj] at hd
        | str s2 => simp [add_flashcard_set_to_kb, hj] at hd
        | obj m => simp [add_flashcard_set_to_kb, hj] at hd

theorem store_set_validates_before_add_witness :
    jsonIsList (jsonLoads "not json") = false
    ∧ add_flashcard_set_to_kb (some kbReady) "u" "T" "not json" "s" "d" 0
        = (false, none) :=
  ⟨by decide,
    (store_set_validates_before_add (some kbReady) "u" "T" "not json" "s" "d" 0).1
      (by decide)⟩

/-- C8: when profile analysis yields the zero-documents sentinel, the
pipeline run aborts at that stage — research and flashcard generation are
never invoked and nothing is handed to storage; and on a live handle, an
empty query result yields exactly that sentinel. -/
theorem pipeline_short_circuit
    (k : KnowledgeBase) (profile_llm research gen_llm : String → String)
    (dumps : List Json → String) (kb_user : Option KnowledgeBase)
    (u topic iso : String) (ms : Nat) :
    (query_knowledge_base (some k) "" 50 = some [] →
      analyze_user_profile (some k) profile_llm 50 "" = noDocsSentinel)
    ∧ (analyze_user_profile (some k) profile_llm 50 "" = noDocsSentinel →
      process_user_content_and_generate_flashcards (some k) profile_llm research
        gen_llm dumps kb_user u topic iso ms = ⟨false, false, none⟩) := by
  constructor
  · intro hq
    simp [analyze_user_profile, hq]
  · intro hs
    unfold process_user_content_and_generate_flashcards
    rw [hs]
    rfl

theorem pipeline_short_circuit_witness :
    analyze_user_profile (some kbReady) (fun _ => "profile") 50 "" = noDocsSentinel
    ∧ process_user_content_and_generate_flashcards (some kbReady)
        (fun _ => "profile") (fun _ => "research") (fun _ => "gen")
        (fun _ => "[]") (some kbReady) "u@x" "T" "d" 0 = ⟨false, false, none⟩ := by
  have h := pipeline_short_circuit kbReady (fun _ => "profile") (fun _ => "research")
    (fun _ => "gen") (fun _ => "[]") (some kbReady) "u@x" "T" "d" 0
  have h1 := h.1 (by decide)
  exact ⟨h1, h.2 h1⟩

theorem parseAgentResponse_cards_iff (s : String) (l : List Json) :
    parseAgentResponse s = FlashcardsResult.cards l
      ↔ (jsonLoads ⟨extractCandidate s.data⟩).bind flashcardsOf = some l := by
  cases hj : jsonLoads ⟨extractCandidate s.data⟩ with
  | none => simp [parseAgentResponse, hj]
  | some j =>
    cases j with
    | obj members =>
      cases hm : lookupMember members "flashcards" with
      | none => simp [parseAgentResponse, flashcardsOf, hj, hm]
      | some v =>
        cases v with
        | arr l2 => simp [parseAgentResponse, flashcardsOf, hj, hm]
        | null => simp [parseAgentResponse, flashcardsOf, hj, hm]
        | bool b => simp [parseAgentResponse, flashcardsOf, hj, hm]
        | num n => simp [parseAgentResponse, flashcardsOf, hj, hm]
        | str s2 => simp [parseAgentResponse, flashcardsOf, hj, hm]
        | obj m2 => simp [parseAgentResponse, flashcardsOf, hj, hm]
    | null => simp [parseAgentResponse, flashcardsOf, hj]
    | bool b => simp [parseAgentResponse, flashcardsOf, hj]
    | num n => simp [parseAgentResponse, flashcardsOf, hj]
    | str s2 => simp [parseAgentResponse, flashcardsOf, hj]
    | arr l2 => simp [parseAgentResponse, flashcardsOf, hj]

/-- C2: `generate_flashcards_from_text` returns the list under the
`flashcards` key exactly when the extracted candidate substring parses to a
JSON object with an array under that key (the list/string result type is
the success signal); the fenced example yields the Q1/A1 card, while the
malformed and wrong-shape examples yield strings carrying the raw text. -/
theorem flashcard_parser_contract :
    (∀ (resp : String) (l : List Json),
        generate_flashcards_from_text (fun _ => resp) "text" 10
            = FlashcardsResult.cards l
          ↔ (jsonLoads ⟨extractCandidate (pyStrip resp).data⟩).bind flashcardsOf
              = some l)
    ∧ generate_flashcards_from_text (fun _ => fencedExample) "text" 10
        = FlashcardsResult.cards [qaCard]
    ∧ generate_flashcards_from_text (fun _ => malformedExample) "text" 10
        = FlashcardsResult.failure
            ("Failed to parse JSON. Raw LLM output: " ++ malformedExample)
    ∧ generate_flashcards_from_text (fun _ => wrongShapeExample) "text" 10
        = FlashcardsResult.failure
            ("JSON parsing error: Unexpected structure. Raw output: "
              ++ wrongShapeExample) := by
  refine ⟨?_, ?_, ?_, ?_⟩
  · intro resp l
    exact parseAgentResponse_cards_iff (pyStrip resp) l
  · set_option maxRecDepth 8000 in rfl
  · set_option maxRecDepth 8000 in rfl
  · set_option maxRecDepth 8000 in rfl

theorem string_append_data (a b : String) : (a ++ b).data = a.data ++ b.data := by
  cases a
  cases b
  rfl

/-- C5 counterexample: for user `u`, topic `ABC`, timestamp 5, the code
stores a document whose id is `flashcards_u_abc_5`, while the claimed
formula built from `sanitize_table_name` gives `flashcards_u_ABC_5`; the
two differ, so the claimed id formula is false at this input. -/
theorem docid_formula_counterexample :
    (add_flashcard_set_to_kb (some kbReady) "u" "ABC" "[]" "s" "d" 5).2.map Document.id
        = some "flashcards_u_abc_5"
    ∧ claimedDocId "u" "ABC" 5 = "flashcards_u_ABC_5"
    ∧ ("flashcards_u_abc_5" : String) ≠ "flashcards_u_ABC_5" :=
  ⟨by decide, by decide, by decide⟩

/-- C5 (amended): the stored document's id is `flashcards_` +
`sanitize_table_name(user_id)` + `_` + (the lowered topic with every
character outside `[A-Za-z0-9_]` replaced by `_`, truncated to 50
characters) + `_` + the millisecond timestamp in decimal; and two stores
for the same user and topic with distinct millisecond timestamps receive
distinct ids. -/
theorem docid_formula_amended
    (k : KnowledgeBase) (u t s src iso : String) (ms : Nat) (d : Document) :
    ((add_flashcard_set_to_kb (some k) u t s src iso ms).2 = some d →
      d.id = "flashcards_" ++ sanitize_table_name u ++ "_"
        ++ ⟨((pyLower t).data.map fun c => if isWordChar c then c else '_').take 50⟩
        ++ "_" ++ natToDec ms)
    ∧ (∀ ms1 ms2 : Nat, ms1 ≠ ms2 → docIdFor u t ms1 ≠ docIdFor u t ms2) := by
  constructor
  · intro hd
    cases hj : jsonLoads s with
    | none => simp [add_flashcard_set_to_kb, hj] at hd
    | some j =>
      cases j with
      | arr l =>
        simp only [add_flashcard_set_to_kb, hj] at hd
        cases hd
        rfl
      | null => simp [add_flashcard_set_to_kb, hj] at hd
      | bool b => simp [add_flashcard_set_to_kb, hj] at hd
      | num n => simp [add_flashcard_set_to_kb, hj] at hd
      | str s2 => simp [add_flashcard_set_to_kb, hj] at hd
      | obj m => simp [add_flashcard_set_to_kb, hj] at hd
  · intro ms1 ms2 hne heq
    apply hne
    apply natToDec_injective
    apply String.ext
    have hd := congrArg String.data heq
    simp only [docIdFor, string_append_data, List.append_assoc] at hd
    exact List.append_cancel_left (List.append_cancel_left (List.append_cancel_left
      (List.append_cancel_left (List.append_cancel_left hd))))

theorem insertionSort_const_key {l : List Document} {v : String}
    (h : ∀ d ∈ l, sortKey d = v) : sortByDateDesc l = l := by
  induction l with
  | nil => rfl
  | cons a l ih =>
    have ha : ∀ b ∈ l, docDesc a b := fun b hb => by
      show sortKey b ≤ sortKey a
      rw [h b (List.mem_cons_of_mem _ hb), h a (List.mem_cons_self a l)]
    show List.insertionSort docDesc (a :: l) = a :: l
    rw [List.insertionSort_cons docDesc ha]
    exact congrArg (a :: ·) (ih fun d hd => h d (List.mem_cons_of_mem _ hd))

/-- C1: with an embedder present, `get_flashcard_sets_for_user` issues one
semantic search for `limit * 10` candidates, keeps exactly the documents
whose metadata matches the flashcard-set/user/topic filter, sorts them
stably by creation date descending, and truncates to `limit`; the result is
descending and at most `limit` long, ties keep backend order, and three
matching sets with pairwise distinct creation dates come back
newest-first. -/
theorem retrieve_sets_contract
    (k : KnowledgeBase) (u : String) (topic : Option String) (limit : Nat)
    (he : k.vector_db.embedder.isNone = false) :
    (get_flashcard_sets_for_user (some k) u topic limit
        = (sortByDateDesc ((k.searchFn (queryTextFor u topic) (limit * 10)).filter
            (flashcardFilter u topic))).take limit)
    ∧ (∀ d ∈ get_flashcard_sets_for_user (some k) u topic limit,
        d ∈ k.searchFn (queryTextFor u topic) (limit * 10)
          ∧ flashcardFilter u topic d = true)
    ∧ (get_flashcard_sets_for_user (some k) u topic limit).length ≤ limit
    ∧ List.Sorted docDesc (get_flashcard_sets_for_user (some k) u topic limit)
    ∧ (∀ v : String,
        (∀ d ∈ (k.searchFn (queryTextFor u topic) (limit * 10)).filter
            (flashcardFilter u topic), sortKey d = v) →
        get_flashcard_sets_for_user (some k) u topic limit
          = ((k.searchFn (queryTextFor u topic) (limit * 10)).filter
              (flashcardFilter u topic)).take limit)
    ∧ (∀ (k3 : KnowledgeBase) (d1 d2 d3 : Document) (lim3 : Nat),
        k3.vector_db.embedder.isNone = false →
        k3.searchFn (queryTextFor u topic) (lim3 * 10) = [d1, d2, d3] →
        flashcardFilter u topic d1 = true →
        flashcardFilter u topic d2 = true →
        flashcardFilter u topic d3 = true →
        sortKey d1 ≠ sortKey d2 → sortKey d1 ≠ sortKey d3 →
        sortKey d2 ≠ sortKey d3 → 3 ≤ lim3 →
        (get_flashcard_sets_for_user (some k3) u topic lim3).Perm [d1, d2, d3]
          ∧ List.Sorted (fun a b => sortKey b < sortKey a)
              (get_flashcard_sets_for_user (some k3) u topic lim3)) := by
  have hmain : get_flashcard_sets_for_user (some k) u topic limit
      = (sortByDateDesc ((k.searchFn (queryTextFor u topic) (limit * 10)).filter
          (flashcardFilter u topic))).take limit := by
    simp [get_flashcard_sets_for_user, he]
  refine ⟨hmain, ?_, ?_, ?_, ?_, ?_⟩
  · intro d hd
    rw [hmain] at hd
    have h1 : d ∈ sortByDateDesc ((k.searchFn (queryTextFor u topic)
        (limit * 10)).filter (flashcardFilter u topic)) := List.take_subset _ _ hd
    have h2 := (List.mem_insertionSort docDesc).1 h1
    exact ⟨(List.mem_filter.1 h2).1, (List.mem_filter.1 h2).2⟩
  · rw [hmain]
    exact List.length_take_le _ _
  · rw [hmain]
    exact List.Pairwise.sublist (List.take_sublist _ _)
      (List.sorted_insertionSort docDesc _)
  · intro v hv
    rw [hmain, insertionSort_const_key hv]
  · intro k3 d1 d2 d3 lim3 he3 hs hf1 hf2 hf3 h12 h13 h23 hlim
    have hmain3 : get_flashcard_sets_for_user (some k3) u topic lim3
        = (sortByDateDesc (([d1, d2, d3] : List Document).filter
            (flashcardFilter u topic))).take lim3 := by
      simp [get_flashcard_sets_for_user, he3, hs]
    have hfeq : ([d1, d2, d3] : List Document).filter (flashcardFilter u topic)
        = [d1, d2, d3] := by
      simp [List.filter_cons, hf1, hf2, hf3]
    rw [hfeq] at hmain3
    have hperm : (sortByDateDesc [d1, d2, d3]).Perm [d1, d2, d3] :=
      List.perm_insertionSort docDesc _
    have htake : (sortByDateDesc [d1, d2, d3]).take lim3
        = sortByDateDesc [d1, d2, d3] :=
      List.take_of_length_le (by rw [hperm.length_eq]; exact hlim)
    rw [htake] at hmain3
    have hsorted : List.Sorted docDesc (sortByDateDesc [d1, d2, d3]) :=
      List.sorted_insertionSort docDesc _
    have hbase : ([d1, d2, d3] : List Document).Pairwise
        (fun a b => sortKey a ≠ sortKey b) := by
      refine List.Pairwise.cons ?_ (List.Pairwise.cons ?_ (List.pairwise_singleton _ _))
      · intro b hb
        rcases List.mem_cons.1 hb with rfl | hb2
        · exact h12
        · rcases List.mem_singleton.1 hb2 with rfl
          exact h13
      · intro b hb
        rcases List.mem_singleton.1 hb with rfl
        exact h23
    have hne : (sortByDateDesc [d1, d2, d3]).Pairwise
        (fun a b => sortKey a ≠ sortKey b) :=
      (hperm.pairwise_iff fun h => Ne.symm h).2 hbase
    constructor
    · rw [hmain3]
      exact hperm
    · rw [hmain3]
      exact List.Pairwise.imp
        (fun hab => lt_of_le_of_ne hab.1 (Ne.symm hab.2)) (hsorted.and hne)

theorem retrieve_sets_contract_witness :
    (get_flashcard_sets_for_user (some kbThree) "u@x" (some "T") 3).Perm [dA, dB, dC]
    ∧ List.Sorted (fun a b => sortKey b < sortKey a)
        (get_flashcard_sets_for_user (some kbThree) "u@x" (some "T") 3) :=
  (retrieve_sets_contract kbThree "u@x" (some "T") 3 rfl).2.2.2.2.2 kbThree dA dB dC 3
    rfl rfl (by decide) (by decide) (by decide) (by decide) (by decide) (by decide)
    (by decide)

theorem docid_formula_amended_witness :
    docStored.id = "flashcards_" ++ sanitize_table_name "u" ++ "_"
        ++ ⟨((pyLower "ABC").data.map fun c => if isWordChar c then c else '_').take 50⟩
        ++ "_" ++ natToDec 5
    ∧ docIdFor "u" "ABC" 1 ≠ docIdFor "u" "ABC" 2 :=
  ⟨(docid_formula_amended kbReady "u" "ABC" "[]" "s" "d" 5 docStored).1 (by decide),
    (docid_formula_amended kbReady "u" "ABC" "[]" "s" "d" 5 docStored).2 1 2
      (by decide)⟩

end Kompow
